import Mathlib

/-!
Verification of the opinion-sdk order construction and pricing pipeline.

The JavaScript source (`src/sdk/utils.js`, `src/sdk/orderBuilder.js`,
`test_price_conversion.js`) is shallowly embedded below.  JavaScript
strings are modelled as Lean `String`s (manipulated through their
`List Char` data), JS `BigInt` values as `Nat` (all quantities in this
code are non-negative), and fallible operations (`BigInt(...)` on a
malformed string, `ethers.parseUnits`, thrown validation errors) as
`Option`/`Except` results.  Decimal-string semantic values are rationals
(`decValue`).  Floating-point computations in the source (`parseFloat`,
`Number`) are modelled as exact rationals; the divergence between the
two only appears beyond 15 significant digits, outside the scope of the
statements proved here, and is noted at each use site.
-/

/-! ## JavaScript string and BigInt primitives -/

/-- The ASCII character of a decimal digit `d < 10`. -/
def digitChar (d : Nat) : Char := Char.ofNat (48 + d)

/-- Numeric value of a (most-significant-first) list of ASCII digit
characters; this is the semantics of JS `BigInt(str)` on an all-digit
string (`BigInt("")` is `0n` in JS, matching `strToNat [] = 0`). -/
def strToNat : List Char → Nat
  | [] => 0
  | c :: cs => (c.toNat - 48) * 10 ^ cs.length + strToNat cs

/-- Fuel-driven rendering of a natural number to its decimal digits,
most significant first (semantics of JS `BigInt.prototype.toString`). -/
def natToDigitsCore : Nat → Nat → List Char
  | 0, _ => []
  | fuel + 1, n =>
    if n < 10 then [digitChar n]
    else natToDigitsCore fuel (n / 10) ++ [digitChar (n % 10)]

/-- Decimal digit list of `n`, e.g. `natToDigits 120 = ['1','2','0']`. -/
def natToDigits (n : Nat) : List Char := natToDigitsCore (n + 1) n

/-- JS `String.prototype.split('.')`. -/
def splitOnDot : List Char → List (List Char)
  | [] => [[]]
  | c :: rest =>
    if c = '.' then [] :: splitOnDot rest
    else
      match splitOnDot rest with
      | [] => [[c]]
      | p :: ps => (c :: p) :: ps

/-- JS `s || d` for a string `s`: the empty string is falsy. -/
def jsEmptyOr (s d : List Char) : List Char := if s = [] then d else s

/-- JS `parts[i] || d`: both `undefined` (index out of range) and the
empty string fall back to the default. -/
def jsOr (o : Option (List Char)) (d : List Char) : List Char :=
  jsEmptyOr (o.getD []) d

/-- JS `String.prototype.padStart(n, '0')`. -/
def padStartZeros (l : List Char) (n : Nat) : List Char :=
  List.replicate (n - l.length) '0' ++ l

/-- JS `String.prototype.padEnd(n, '0')`. -/
def padEndZeros (l : List Char) (n : Nat) : List Char :=
  l ++ List.replicate (n - l.length) '0'

/-- JS `str.replace(/0+$/, '')`: strip trailing `'0'` characters. -/
def trimTrailingZeros (l : List Char) : List Char :=
  (l.reverse.dropWhile (fun c => c = '0')).reverse

/-- JS `BigInt(str)`: succeeds on all-digit strings (`BigInt("")` is
`0n`) and throws a `SyntaxError` on other character content.  Real
`BigInt` additionally trims the whitespace set and accepts sign and
radix prefixes; none of those forms lie in the domain of any statement
proved below (the quantified inputs are digit strings, and the one
concrete non-digit probe, `"50abc"`, throws in both the model and JS). -/
def jsBigInt (s : List Char) : Option Nat :=
  if s.all Char.isDigit then some (strToNat s) else none

/-- JS `String.prototype.toLowerCase()` restricted to ASCII (all inputs
in this code are ASCII identifiers and hex addresses). -/
def jsToLowerAscii (s : String) : String :=
  String.mk (s.data.map (fun c =>
    if 'A' ≤ c ∧ c ≤ 'Z' then Char.ofNat (c.toNat + 32) else c))

/-- The ECMAScript whitespace set skipped by `parseFloat` (WhiteSpace
and LineTerminator code points of the `TrimString` operation). -/
def jsIsWhitespace (c : Char) : Bool :=
  c.toNat = 0x9 ∨ c.toNat = 0xA ∨ c.toNat = 0xB ∨ c.toNat = 0xC ∨
    c.toNat = 0xD ∨ c.toNat = 0x20 ∨ c.toNat = 0xA0 ∨ c.toNat = 0xFEFF ∨
    c.toNat = 0x1680 ∨ (0x2000 ≤ c.toNat ∧ c.toNat ≤ 0x200A) ∨
    c.toNat = 0x2028 ∨ c.toNat = 0x2029 ∨ c.toNat = 0x202F ∨
    c.toNat = 0x205F ∨ c.toNat = 0x3000

/-- Outcome of JS `parseFloat`: `NaN`, a signed infinity (from an
`Infinity` literal or an overflowing exponent the model keeps exact
instead), or a finite value given as the exact scaled integer
`(numerator, fractionalDigits)` denoting
`numerator / 10 ^ fractionalDigits` (see `floatVal`). -/
inductive JsNumParse where
  | nan : JsNumParse
  | infinite : Bool → JsNumParse
  | finite : Int → Nat → JsNumParse
deriving DecidableEq

/-- The exponent part of a JS number literal: an optional sign followed
by digits; an incomplete exponent (`"5e"`, `"5e+"`) contributes 0, as
`parseFloat` then stops before the `e`. -/
def jsParseExponent (l : List Char) : Int :=
  let signAndRest : Bool × List Char :=
    match l with
    | '-' :: r => (true, r)
    | '+' :: r => (false, r)
    | r => (false, r)
  let ed := signAndRest.2.takeWhile Char.isDigit
  if ed = [] then 0
  else if signAndRest.1 then -(strToNat ed : Int) else (strToNat ed : Int)

/-- JS `parseFloat`, modelled exactly: skip leading whitespace, parse
an optional sign, then the longest prefix of the form
`Infinity | digits* ('.' digits*)? ([eE] [+-]? digits)?` — `NaN` when
no digit (and no `Infinity`) is found, trailing garbage ignored.  The
finite result is kept as an exact scaled integer rather than the
nearest IEEE-754 double: the two differ only when more than ~15
significant digits survive, so the `[0,100]` range test made from
it by `buildOrderParams` coincides with the double test except within
`~2^-46` of the boundaries on the outside (the price-validation theorem
therefore restricts its out-of-range case to at most 13 parsed
fractional digits; the in-range direction is exact, since rounding to
nearest can never carry a value across the representable boundaries 0
and 100). -/
def jsParseFloat (s : String) : JsNumParse :=
  let afterWs := s.data.dropWhile jsIsWhitespace
  let signAndRest : Bool × List Char :=
    match afterWs with
    | '-' :: r => (true, r)
    | '+' :: r => (false, r)
    | r => (false, r)
  let neg := signAndRest.1
  let rest := signAndRest.2
  if rest.take 8 = "Infinity".data then JsNumParse.infinite neg
  else
    let ds := rest.takeWhile Char.isDigit
    let rest2 := rest.drop ds.length
    let fsRest : List Char × List Char :=
      match rest2 with
      | '.' :: r2 => (r2.takeWhile Char.isDigit, r2.dropWhile Char.isDigit)
      | _ => ([], rest2)
    let fs := fsRest.1
    if ds = [] ∧ fs = [] then JsNumParse.nan
    else
      let expVal : Int :=
        match fsRest.2 with
        | 'e' :: r4 => jsParseExponent r4
        | 'E' :: r4 => jsParseExponent r4
        | _ => 0
      let mant : Int := strToNat ds * 10 ^ fs.length + strToNat fs
      let mantS : Int := if neg then -mant else mant
      let fExp : Int := (fs.length : Int) - expVal
      if fExp ≤ 0 then JsNumParse.finite (mantS * 10 ^ (-fExp).toNat) 0
      else JsNumParse.finite mantS fExp.toNat

/-- The rational value of a finite `jsParseFloat` result. -/
def floatVal (v : Int × Nat) : ℚ := (v.1 : ℚ) / 10 ^ v.2

/-! ## Semantic value of decimal strings -/

/-- The exact rational value denoted by a non-negative decimal string
(integer part, optionally a dot and a fractional part).  Used only to
state theorems; never used by the embedded code. -/
def decValue (s : String) : ℚ :=
  match splitOnDot s.data with
  | [i] => strToNat i
  | [i, f] => (strToNat i : ℚ) + (strToNat f : ℚ) / 10 ^ f.length
  | _ => 0

/-- All characters of a list are ASCII decimal digits. -/
def AllDigits (l : List Char) : Prop := ∀ c ∈ l, c.isDigit = true

instance (l : List Char) : Decidable (AllDigits l) := by
  unfold AllDigits; infer_instance

/-- Builds the decimal string `ip` or `ip ++ "." ++ fp`; every
non-negative decimal string arises this way.  Used to quantify theorems
over decimal-string inputs. -/
def mkDecString (ip : List Char) (fp : Option (List Char)) : String :=
  match fp with
  | none => String.mk ip
  | some f => String.mk (ip ++ '.' :: f)

/-- The integer obtained by erasing the decimal point of a decimal
string (numerator at scale `10 ^ fracLen`). -/
def parsedNum (ip : List Char) (fp : Option (List Char)) : Nat :=
  strToNat (ip ++ fp.getD [])

/-- Number of fractional digits of a decimal string. -/
def fracLen (fp : Option (List Char)) : Nat := (fp.getD []).length

/-- A decimal string either has no fractional part, or a nonempty one
of at most 18 digits with no trailing zero.  Used to state the claim on
`calculateAmountWithBigInt`'s output shape. -/
def noTrailingZeroFrac (s : String) : Bool :=
  match splitOnDot s.data with
  | [_] => true
  | [_, f] => f ≠ [] ∧ f.getLast? ≠ some '0' ∧ f.length ≤ 18
  | _ => false

/-! ## `src/sdk/utils.js` -/

/-- Lines 78-89 of `calculateAmountWithBigInt` (utils.js): render the
`10^18`-scaled integer `resultScaled` as a decimal string with at most
18 fractional digits, trimming trailing zeros. -/
def renderScaled18 (resultScaled : Nat) : String :=
  let resultStr := padStartZeros (natToDigits resultScaled) 19
  let resultInt := jsEmptyOr (resultStr.take (resultStr.length - 18)) ['0']
  let resultDec := resultStr.drop (resultStr.length - 18)
  let trimmedDec := trimTrailingZeros resultDec
  if trimmedDec = [] then String.mk resultInt
  else String.mk (resultInt ++ '.' :: trimmedDec)

/-- `calculateAmountWithBigInt` (utils.js lines 48-90): computes
`shares * price / 100` exactly with BigInt arithmetic at an 18-decimal
output scale.  The source's `padEnd(sharesDecPlaces, '0')` pads a string
to its own length and is the identity, so it is omitted.  `none` models
the `SyntaxError` thrown by `BigInt(...)` on a non-digit string. -/
def calculateAmountWithBigInt (shares price : String) : Option String :=
  let sharesParts := splitOnDot shares.data
  let sharesInt := jsOr sharesParts[0]? ['0']
  let sharesDec := jsOr sharesParts[1]? []
  let priceParts := splitOnDot price.data
  let priceInt := jsOr priceParts[0]? ['0']
  let priceDec := jsOr priceParts[1]? []
  let totalDecPlaces := sharesDec.length + priceDec.length
  match jsBigInt (sharesInt ++ sharesDec), jsBigInt (priceInt ++ priceDec) with
  | some sharesBigInt, some priceBigInt =>
    let product := sharesBigInt * priceBigInt
    let divisor := 100 * 10 ^ totalDecPlaces
    let resultScaled := product * 10 ^ 18 / divisor
    some (renderScaled18 resultScaled)
  | _, _ => none

/-- Modelled from the spec: `toBaseUnits` (§4.1), the semantics of
`ethers.parseUnits(s, 18)` used by `toWei` — the `ethers` library is an
external dependency whose source is not part of this repository.  A
non-negative decimal string with at most 18 fractional digits converts
losslessly to base units; anything else (empty string, non-digit
characters, more than 18 fractional digits) is an error. -/
def parseUnits18 (s : String) : Option Nat :=
  match splitOnDot s.data with
  | [i] =>
    if i ≠ [] ∧ AllDigits i then some (strToNat i * 10 ^ 18) else none
  | [i, f] =>
    if AllDigits i ∧ f ≠ [] ∧ AllDigits f ∧ f.length ≤ 18 then
      some (strToNat i * 10 ^ 18 + strToNat f * 10 ^ (18 - f.length))
    else none
  | _ => none

/-- `toWei` (utils.js lines 10-16) with the default
`COLLATERAL_TOKEN_DECIMAL = 18` (constants.js, bundled copy at
query_orders_example.js line 877; also the 18-decimal scale of spec
§3). -/
def toWei (s : String) : Option String :=
  (parseUnits18 s).map (fun n => String.mk (natToDigits n))

/-- The non-stable price conversion of utils.js line 109:
`String(100 * Number(limitPrice))`.  The source computes it through
IEEE-754 doubles and shortest-round-trip rendering (for `"0.57"` it
yields `"56.99999999999999"`), which a shallow embedding cannot
express; it is idealized here as the exact ×100 decimal-point shift
that spec §4.2 specifies ("the price is first rescaled by ×100").  The
only theorem whose domain reaches this branch is the side-swap theorem,
which holds for every possible output of this function, as its proof
treats the result opaquely. -/
def rescalePrice100 (s : String) : String :=
  match splitOnDot s.data with
  | [i] => String.mk (i ++ ['0', '0'])
  | [i, f] =>
    if f.length ≤ 2 then String.mk (i ++ f ++ List.replicate (2 - f.length) '0')
    else String.mk (i ++ f.take 2 ++ '.' :: f.drop 2)
  | _ => s

/-- Input record of `calculateOrderAmounts` (utils.js lines 105-140). -/
structure OrderAmountParams where
  side : Nat
  shares : String
  limitPrice : String
  volumeType : String
  buyInputVal : String
  isStableCoin : Bool
deriving DecidableEq

/-- `calculateOrderAmounts` (utils.js lines 105-140): derives
`(makerAmount, takerAmount)` in base units.  `none` models a thrown
error (from `BigInt` parsing or `toWei`). -/
def calculateOrderAmounts (p : OrderAmountParams) : Option (String × String) :=
  let price := if p.isStableCoin then p.limitPrice else rescalePrice100 p.limitPrice
  let amountOpt :=
    if p.volumeType = "Shares" then calculateAmountWithBigInt p.shares price
    else some p.buyInputVal
  match amountOpt with
  | none => none
  | some amount =>
    if p.side = 0 then
      match toWei amount, toWei p.shares with
      | some makerAmount, some takerAmount => some (makerAmount, takerAmount)
      | _, _ => none
    else
      match toWei p.shares, toWei amount with
      | some makerAmount, some takerAmount => some (makerAmount, takerAmount)
      | _, _ => none

/-- `encodeGnosisSafeSignature` (utils.js lines 150-158): packed
signer-address-prefixed signature encoding (dead capability, unused by
the main signing flow). -/
def encodeGnosisSafeSignature (signer signature : String) : String :=
  let cleanSignature :=
    if signature.data.take 2 = ['0', 'x'] then signature.data.drop 2
    else signature.data
  let cleanSigner :=
    if (jsToLowerAscii signer).data.take 2 = ['0', 'x'] then signer.data.drop 2
    else signer.data
  String.mk ('0' :: 'x' :: (jsToLowerAscii (String.mk cleanSigner)).data ++ cleanSignature)

/-- Modelled from the spec: a "well-formed 20-byte hex address" (§4.3),
the semantics of `ethers.isAddress` used by `isValidAddress` — `ethers`
is an external dependency.  (The EIP-55 checksum test on mixed-case
inputs is not modelled; no statement below depends on it.) -/
def isValidAddress (s : String) : Bool :=
  s.data.take 2 = ['0', 'x'] ∧ (s.data.drop 2).length = 40 ∧
    (s.data.drop 2).all (fun c => c.isDigit ∨ ('a' ≤ c ∧ c ≤ 'f') ∨ ('A' ≤ c ∧ c ≤ 'F'))

/-- `normalizeAddress` (utils.js lines 174-179): validate, then
lowercase; `Except.error` models the thrown `Invalid address` error. -/
def normalizeAddress (s : String) : Except String String :=
  if isValidAddress s then Except.ok (jsToLowerAscii s)
  else Except.error ("Invalid address: " ++ s)

/-! ## `test_price_conversion.js` -/

/-- `formatPriceWithBigInt` (test_price_conversion.js lines 6-21, the
spec's `priceToMarketFraction`): converts a 0-100 percentage string to
the market's fractional price with 3 decimal digits via BigInt
truncating division. -/
def formatPriceWithBigInt (limitPrice : String) : Option String :=
  let parts := splitOnDot limitPrice.data
  let integerPart := jsOr parts[0]? ['0']
  let decimalPart := padEndZeros (jsOr parts[1]? ['0']) 2
  match jsBigInt (integerPart ++ decimalPart) with
  | none => none
  | some bigIntValue =>
    let resultTimes1000 := bigIntValue * 1000 / 10000
    let resultStr := padStartZeros (natToDigits resultTimes1000) 4
    let resultInt := jsEmptyOr (resultStr.take (resultStr.length - 3)) ['0']
    let resultDec := resultStr.drop (resultStr.length - 3)
    some (String.mk (resultInt ++ '.' :: resultDec))

/-! ## Constants (constants.js, bundled in query_orders_example.js) -/

/-- `ZERO_ADDRESS` of constants.js (bundled copy at
query_orders_example.js line 948), the all-zero taker address of spec
§4.3. -/
def ZERO_ADDRESS : String := "0x0000000000000000000000000000000000000000"

/-- `SignatureType.POLY_GNOSIS_SAFE` of constants.js (bundled copy at
query_orders_example.js line 920), the smart-contract-wallet-owner
signature type tag of spec §3/§4.3. -/
def POLY_GNOSIS_SAFE : Nat := 2

/-! ## `src/sdk/orderBuilder.js` -/

/-- Input record of `buildOrderParams` with the source's destructuring
defaults (orderBuilder.js lines 21-34); an omitted JS argument is a
field left at its default. -/
structure BuildOrderInput where
  maker : String
  signer : String
  tokenId : String
  limitPrice : String
  shares : String
  side : Nat
  volumeType : String := "Shares"
  buyInputVal : String := "0"
  isStableCoin : Bool := true
  expiration : String := "0"
  feeRateBps : String := "0"
deriving DecidableEq

/-- The distinct errors thrown by `buildOrderParams`:
`missingParams` = "Missing required parameters: maker, signer, tokenId,
limitPrice, shares"; `invalidSide` = "Invalid side: ...";
`invalidPrice` = "Limit price must be between 0 and 100";
`amountError` = any error propagated from `calculateOrderAmounts`. -/
inductive BuildError where
  | missingParams : BuildError
  | invalidSide : BuildError
  | invalidPrice : BuildError
  | amountError : BuildError
deriving DecidableEq

/-- The order-parameter record returned by `buildOrderParams`
(orderBuilder.js lines 63-72). -/
structure OrderParamsOut where
  maker : String
  signer : String
  tokenId : String
  makerAmount : String
  takerAmount : String
  side : Nat
  expiration : String
  feeRateBps : String
deriving DecidableEq

/-- `buildOrderParams` (orderBuilder.js lines 21-75).  The falsiness
test `!maker || ...` on strings is emptiness; the price check is
`isNaN(price) || price < 0 || price > 100` on `parseFloat(limitPrice)`:
`NaN` fails, `+Infinity > 100` and `-Infinity < 0` both fail, and a
finite value fails exactly when it lies outside `[0, 100]` (the exact
integer test `num < 0 ∨ 100·10^fd < num` is that comparison; see
`jsParseFloat` for the boundary caveat versus doubles). -/
def buildOrderParams (p : BuildOrderInput) : Except BuildError OrderParamsOut :=
  if p.maker = "" ∨ p.signer = "" ∨ p.tokenId = "" ∨ p.limitPrice = "" ∨ p.shares = "" then
    Except.error BuildError.missingParams
  else if ¬(p.side = 0 ∨ p.side = 1) then
    Except.error BuildError.invalidSide
  else
    match jsParseFloat p.limitPrice with
    | JsNumParse.nan => Except.error BuildError.invalidPrice
    | JsNumParse.infinite _ => Except.error BuildError.invalidPrice
    | JsNumParse.finite num fd =>
      if num < 0 ∨ (100 : Int) * 10 ^ fd < num then
        Except.error BuildError.invalidPrice
      else
        match calculateOrderAmounts
            ⟨p.side, p.shares, p.limitPrice, p.volumeType, p.buyInputVal, p.isStableCoin⟩ with
        | none => Except.error BuildError.amountError
        | some amounts =>
          Except.ok ⟨p.maker, p.signer, p.tokenId, amounts.1, amounts.2,
            p.side, p.expiration, p.feeRateBps⟩

/-- Input record of `createOrder` with the source's defaults
(orderBuilder.js lines 160-170). -/
structure CreateOrderInput where
  maker : String
  signer : String
  tokenId : String
  makerAmount : String
  takerAmount : String
  side : Nat
  expiration : String := "0"
  feeRateBps : String := "0"
deriving DecidableEq

/-- The canonical signable order record (orderBuilder.js lines 176-189,
spec §3). -/
structure OrderRec where
  salt : String
  maker : String
  signer : String
  taker : String
  tokenId : String
  makerAmount : String
  takerAmount : String
  expiration : String
  nonce : String
  feeRateBps : String
  side : Nat
  signatureType : Nat
deriving DecidableEq

/-- `createOrder` (orderBuilder.js lines 160-192).  `generateSalt()`
reads the system clock (`Date.now()`); following spec §4.3 ("deterministic
given its inputs and the injected clock") the millisecond timestamp is
passed as the argument `now`. -/
def createOrder (now : Nat) (p : CreateOrderInput) : OrderRec :=
  { salt := String.mk (natToDigits now)
    maker := jsToLowerAscii p.maker
    signer := jsToLowerAscii p.signer
    taker := ZERO_ADDRESS
    tokenId := p.tokenId
    makerAmount := p.makerAmount
    takerAmount := p.takerAmount
    expiration := p.expiration
    nonce := "0"
    feeRateBps := p.feeRateBps
    side := p.side
    signatureType := POLY_GNOSIS_SAFE }

/-- A signed order: the order record plus the signature
(orderBuilder.js lines 213-216, spec §3 `SignedOrder`). -/
structure SignedOrderRec extends OrderRec where
  signature : String
deriving DecidableEq

/-- `signOrder` (orderBuilder.js lines 201-220): spreads the order's
fields unchanged and adds the raw typed-data signature.  The wallet's
`signTypedData` output (external `ethers` cryptography) is the argument
`signature`; the function returns it verbatim, without
`encodeGnosisSafeSignature` wrapping. -/
def signOrder (signature : String) (order : OrderRec) : SignedOrderRec :=
  { order with signature := signature }

/-! ## Lemmas: digits and `strToNat` -/

theorem isDigit_ne_dot {c : Char} (h : c.isDigit = true) : c ≠ '.' := by
  intro hc
  subst hc
  exact absurd h (by decide)

theorem not_dot_of_allDigits {l : List Char} (h : AllDigits l) : '.' ∉ l := by
  intro hmem
  exact isDigit_ne_dot (h _ hmem) rfl

theorem strToNat_append (a b : List Char) :
    strToNat (a ++ b) = strToNat a * 10 ^ b.length + strToNat b := by
  induction a with
  | nil => simp [strToNat]
  | cons c cs ih =>
    show strToNat (c :: (cs ++ b)) = _
    simp only [strToNat, ih, List.length_append, pow_add]
    ring

theorem strToNat_replicate_zero (k : Nat) :
    strToNat (List.replicate k '0') = 0 := by
  induction k with
  | zero => rfl
  | succ n ih => simp [List.replicate, strToNat, ih]

theorem strToNat_padStart (l : List Char) (n : Nat) :
    strToNat (padStartZeros l n) = strToNat l := by
  simp [padStartZeros, strToNat_append, strToNat_replicate_zero]

theorem strToNat_append_zeros (l : List Char) (k : Nat) :
    strToNat (l ++ List.replicate k '0') = strToNat l * 10 ^ k := by
  simp [strToNat_append, strToNat_replicate_zero]

theorem strToNat_zero_cons (l : List Char) :
    strToNat ('0' :: l) = strToNat l := by
  simp [strToNat]

theorem allDigits_append {a b : List Char} (ha : AllDigits a) (hb : AllDigits b) :
    AllDigits (a ++ b) := by
  intro c hc
  rcases List.mem_append.mp hc with h | h
  · exact ha _ h
  · exact hb _ h

theorem allDigits_replicate_zero (k : Nat) : AllDigits (List.replicate k '0') := by
  intro c hc
  rw [List.eq_of_mem_replicate hc]
  decide

theorem allDigits_padStart {l : List Char} (h : AllDigits l) (n : Nat) :
    AllDigits (padStartZeros l n) :=
  allDigits_append (allDigits_replicate_zero _) h

theorem allDigits_take {l : List Char} (h : AllDigits l) (n : Nat) :
    AllDigits (l.take n) := fun c hc => h c (List.mem_of_mem_take hc)

theorem allDigits_drop {l : List Char} (h : AllDigits l) (n : Nat) :
    AllDigits (l.drop n) := fun c hc => h c (List.mem_of_mem_drop hc)

/-! ## Lemmas: `natToDigits` -/

theorem digitChar_toNat : ∀ d, d < 10 → (digitChar d).toNat = 48 + d := by decide

theorem digitChar_isDigit : ∀ d, d < 10 → (digitChar d).isDigit = true := by decide

theorem natToDigitsCore_spec :
    ∀ fuel n, n < 10 ^ fuel → 1 ≤ fuel →
      strToNat (natToDigitsCore fuel n) = n ∧ natToDigitsCore fuel n ≠ [] ∧
        AllDigits (natToDigitsCore fuel n) := by
  intro fuel
  induction fuel with
  | zero => intro n _ h1; exact absurd h1 (by decide)
  | succ f ih =>
    intro n hn _
    by_cases h10 : n < 10
    · refine ⟨?_, by simp [natToDigitsCore, h10], ?_⟩
      · simp [natToDigitsCore, h10, strToNat, digitChar_toNat n h10]
      · intro c hc
        simp [natToDigitsCore, h10] at hc
        rw [hc]
        exact digitChar_isDigit n h10
    · have hf : 1 ≤ f := by
        by_contra hf0
        have : f = 0 := by omega
        subst this
        simp at hn
        omega
      have hdiv : n / 10 < 10 ^ f := by
        have h1 : n < 10 ^ (f + 1) := hn
        have : n / 10 < 10 ^ (f + 1) / 10 := by
          apply Nat.div_lt_div_of_lt_of_dvd
          · exact Dvd.intro (10 ^ f) (by ring)
          · exact h1
        simpa [pow_succ, Nat.mul_div_cancel_left] using this
      obtain ⟨ihv, ihne, ihd⟩ := ih (n / 10) hdiv hf
      have hmod : n % 10 < 10 := Nat.mod_lt _ (by norm_num)
      refine ⟨?_, by simp [natToDigitsCore, h10], ?_⟩
      · simp only [natToDigitsCore, h10, if_false]
        rw [strToNat_append, ihv]
        simp [strToNat, digitChar_toNat _ hmod]
        omega
      · intro c hc
        simp only [natToDigitsCore, h10, if_false, List.mem_append, List.mem_singleton] at hc
        rcases hc with h | h
        · exact ihd _ h
        · rw [h]; exact digitChar_isDigit _ hmod

theorem strToNat_natToDigits (n : Nat) : strToNat (natToDigits n) = n :=
  (natToDigitsCore_spec (n + 1) n
    (lt_of_lt_of_le (Nat.lt_two_pow n) (Nat.pow_le_pow_left (by norm_num) _)
      |>.trans_le (Nat.pow_le_pow_right (by norm_num) (Nat.le_succ n)))
    (Nat.succ_le_succ (Nat.zero_le n))).1

theorem natToDigits_ne_nil (n : Nat) : natToDigits n ≠ [] :=
  (natToDigitsCore_spec (n + 1) n
    (lt_of_lt_of_le (Nat.lt_two_pow n) (Nat.pow_le_pow_left (by norm_num) _)
      |>.trans_le (Nat.pow_le_pow_right (by norm_num) (Nat.le_succ n)))
    (Nat.succ_le_succ (Nat.zero_le n))).2.1

theorem allDigits_natToDigits (n : Nat) : AllDigits (natToDigits n) :=
  (natToDigitsCore_spec (n + 1) n
    (lt_of_lt_of_le (Nat.lt_two_pow n) (Nat.pow_le_pow_left (by norm_num) _)
      |>.trans_le (Nat.pow_le_pow_right (by norm_num) (Nat.le_succ n)))
    (Nat.succ_le_succ (Nat.zero_le n))).2.2

/-! ## Lemmas: `splitOnDot` -/

theorem splitOnDot_no_dot {l : List Char} (h : '.' ∉ l) : splitOnDot l = [l] := by
  induction l with
  | nil => rfl
  | cons c cs ih =>
    have hc : c ≠ '.' := fun hc => h (hc ▸ List.mem_cons_self c cs)
    have hcs : '.' ∉ cs := fun hm => h (List.mem_cons_of_mem c hm)
    simp [splitOnDot, hc, ih hcs]

theorem splitOnDot_append_dot {a : List Char} (b : List Char) (h : '.' ∉ a) :
    splitOnDot (a ++ '.' :: b) = a :: splitOnDot b := by
  induction a with
  | nil => simp [splitOnDot]
  | cons c cs ih =>
    have hc : c ≠ '.' := fun hc => h (hc ▸ List.mem_cons_self c cs)
    have hcs : '.' ∉ cs := fun hm => h (List.mem_cons_of_mem c hm)
    have hne : splitOnDot (cs ++ '.' :: b) = cs :: splitOnDot b := ih hcs
    simp [splitOnDot, hc, hne]

theorem splitOnDot_pair {a b : List Char} (ha : '.' ∉ a) (hb : '.' ∉ b) :
    splitOnDot (a ++ '.' :: b) = [a, b] := by
  rw [splitOnDot_append_dot b ha, splitOnDot_no_dot hb]

/-! ## Lemmas: `trimTrailingZeros` -/

theorem trimTrailingZeros_spec (l : List Char) :
    l = trimTrailingZeros l ++
        List.replicate (l.length - (trimTrailingZeros l).length) '0' ∧
      (trimTrailingZeros l).length ≤ l.length := by
  have hsplit : l.reverse.takeWhile (fun c => c = '0') ++
      l.reverse.dropWhile (fun c => c = '0') = l.reverse :=
    List.takeWhile_append_dropWhile _ _
  have hlen : (l.reverse.takeWhile (fun c => c = '0')).length +
      (l.reverse.dropWhile (fun c => c = '0')).length = l.length := by
    have h := congrArg List.length hsplit
    simp only [List.length_append, List.length_reverse] at h
    exact h
  have htake : l.reverse.takeWhile (fun c => c = '0') =
      List.replicate (l.reverse.takeWhile (fun c => c = '0')).length '0' := by
    apply List.eq_replicate_of_mem
    intro c hc
    have h2 := @List.mem_takeWhile_imp Char (fun c => decide (c = '0')) l.reverse c hc
    exact of_decide_eq_true h2
  have htrimlen : (trimTrailingZeros l).length =
      (l.reverse.dropWhile (fun c => c = '0')).length := by
    simp [trimTrailingZeros]
  refine ⟨?_, by omega⟩
  calc l = l.reverse.reverse := l.reverse_reverse.symm
    _ = (l.reverse.takeWhile (fun c => c = '0') ++
          l.reverse.dropWhile (fun c => c = '0')).reverse := by rw [hsplit]
    _ = (l.reverse.dropWhile (fun c => c = '0')).reverse ++
          (l.reverse.takeWhile (fun c => c = '0')).reverse :=
        List.reverse_append _ _
    _ = trimTrailingZeros l ++
          List.replicate (l.length - (trimTrailingZeros l).length) '0' := by
        unfold trimTrailingZeros
        congr 1
        rw [htake, List.reverse_replicate]
        congr 1
        simp only [List.length_reverse]
        omega

theorem trimTrailingZeros_getLast {l : List Char} (h : trimTrailingZeros l ≠ []) :
    (trimTrailingZeros l).getLast? ≠ some '0' := by
  unfold trimTrailingZeros at h ⊢
  rw [List.getLast?_reverse]
  cases hd : l.reverse.dropWhile (fun c => c = '0') with
  | nil => simp [hd] at h
  | cons x xs =>
    have hx := List.head?_dropWhile_not (fun c => c = '0') l.reverse
    rw [hd] at hx
    simp only [List.head?_cons] at hx
    have : ¬(x = '0') := by simpa using hx
    simpa [hd] using this

theorem trimTrailingZeros_subset {l : List Char} {c : Char}
    (hc : c ∈ trimTrailingZeros l) : c ∈ l := by
  unfold trimTrailingZeros at hc
  rw [List.mem_reverse] at hc
  have := (List.dropWhile_sublist (l := l.reverse) (p := fun c => c = '0')).mem hc
  rwa [List.mem_reverse] at this

/-! ## Lemmas: rendering a scaled integer and reading it back -/

theorem string_data_mk (l : List Char) : (String.mk l).data = l := rfl

theorem renderCore (n k : Nat) :
    (padStartZeros (natToDigits n) (k + 1)).take
        ((padStartZeros (natToDigits n) (k + 1)).length - k) ≠ [] ∧
      ((padStartZeros (natToDigits n) (k + 1)).drop
        ((padStartZeros (natToDigits n) (k + 1)).length - k)).length = k ∧
      strToNat ((padStartZeros (natToDigits n) (k + 1)).take
        ((padStartZeros (natToDigits n) (k + 1)).length - k)) * 10 ^ k +
        strToNat ((padStartZeros (natToDigits n) (k + 1)).drop
          ((padStartZeros (natToDigits n) (k + 1)).length - k)) = n := by
  have hdlen : 1 ≤ (natToDigits n).length :=
    List.length_pos.mpr (natToDigits_ne_nil n)
  have hslen : (padStartZeros (natToDigits n) (k + 1)).length =
      (k + 1 - (natToDigits n).length) + (natToDigits n).length := by
    simp [padStartZeros]
  have hge : k + 1 ≤ (padStartZeros (natToDigits n) (k + 1)).length := by omega
  have htlen : ((padStartZeros (natToDigits n) (k + 1)).take
      ((padStartZeros (natToDigits n) (k + 1)).length - k)).length =
      (padStartZeros (natToDigits n) (k + 1)).length - k := by
    rw [List.length_take]
    omega
  have hdplen : ((padStartZeros (natToDigits n) (k + 1)).drop
      ((padStartZeros (natToDigits n) (k + 1)).length - k)).length = k := by
    rw [List.length_drop]
    omega
  refine ⟨?_, hdplen, ?_⟩
  · intro hnil
    rw [hnil] at htlen
    simp at htlen
    omega
  · have hval : strToNat (padStartZeros (natToDigits n) (k + 1)) = n := by
      rw [strToNat_padStart, strToNat_natToDigits]
    conv_rhs => rw [← hval]
    conv_rhs =>
      rw [← List.take_append_drop
        ((padStartZeros (natToDigits n) (k + 1)).length - k)
        (padStartZeros (natToDigits n) (k + 1))]
    rw [strToNat_append, hdplen]

theorem decValue_mk_nodot {i : List Char} (h : '.' ∉ i) :
    decValue (String.mk i) = strToNat i := by
  simp only [decValue, string_data_mk, splitOnDot_no_dot h]

theorem decValue_mk_dot {i f : List Char} (hi : '.' ∉ i) (hf : '.' ∉ f) :
    decValue (String.mk (i ++ '.' :: f)) =
      (strToNat i : ℚ) + (strToNat f : ℚ) / 10 ^ f.length := by
  simp only [decValue, string_data_mk, splitOnDot_pair hi hf]

theorem decValue_mkDecString {ip : List Char} {fp : Option (List Char)}
    (h1 : AllDigits ip) (h2 : AllDigits (fp.getD [])) :
    decValue (mkDecString ip fp) = (parsedNum ip fp : ℚ) / 10 ^ fracLen fp := by
  cases fp with
  | none =>
    simp only [mkDecString, parsedNum, fracLen, Option.getD_none, List.append_nil]
    rw [decValue_mk_nodot (not_dot_of_allDigits h1)]
    simp
  | some f =>
    simp only [Option.getD_some] at h2
    simp only [mkDecString, parsedNum, fracLen, Option.getD_some]
    rw [decValue_mk_dot (not_dot_of_allDigits h1) (not_dot_of_allDigits h2),
      strToNat_append]
    have h10 : (10 : ℚ) ^ f.length ≠ 0 := by positivity
    push_cast
    field_simp

theorem renderScaled18_props (n : Nat) :
    decValue (renderScaled18 n) = (n : ℚ) / 10 ^ 18 ∧
      parseUnits18 (renderScaled18 n) = some n ∧
      noTrailingZeroFrac (renderScaled18 n) = true := by
  obtain ⟨hne, hdlen, hval⟩ := renderCore n 18
  set s := padStartZeros (natToDigits n) 19 with hs
  set i := s.take (s.length - 18) with hi
  set f := s.drop (s.length - 18) with hf
  have hsd : AllDigits s := allDigits_padStart (allDigits_natToDigits n) 19
  have hid : AllDigits i := allDigits_take hsd _
  have hfd : AllDigits f := allDigits_drop hsd _
  have hemptyOr : jsEmptyOr i ['0'] = i := by simp [jsEmptyOr, hne]
  obtain ⟨hfeq, hfle⟩ := trimTrailingZeros_spec f
  set t := trimTrailingZeros f with ht
  have htd : AllDigits t := fun c hc => hfd c (trimTrailingZeros_subset hc)
  have hstf : strToNat f = strToNat t * 10 ^ (f.length - t.length) := by
    conv_lhs => rw [hfeq]
    rw [strToNat_append_zeros]
  have hrender : renderScaled18 n =
      if t = [] then String.mk (jsEmptyOr i ['0'])
      else String.mk (jsEmptyOr i ['0'] ++ '.' :: t) := rfl
  rw [hemptyOr] at hrender
  by_cases hcase : t = []
  · have hf0 : strToNat f = 0 := by rw [hstf, hcase]; simp [strToNat]
    have hn : n = strToNat i * 10 ^ 18 := by omega
    rw [hrender, if_pos hcase]
    refine ⟨?_, ?_, ?_⟩
    · rw [decValue_mk_nodot (not_dot_of_allDigits hid), hn]
      push_cast
      field_simp
      norm_num
    · simp only [parseUnits18, string_data_mk,
        splitOnDot_no_dot (not_dot_of_allDigits hid)]
      rw [if_pos ⟨hne, hid⟩, hn]
    · simp only [noTrailingZeroFrac, string_data_mk,
        splitOnDot_no_dot (not_dot_of_allDigits hid)]
  · have htle : t.length ≤ 18 := by omega
    have hn : n = strToNat i * 10 ^ 18 + strToNat t * 10 ^ (18 - t.length) := by
      rw [← hval, hstf, hdlen]
    rw [hrender, if_neg hcase]
    refine ⟨?_, ?_, ?_⟩
    · rw [decValue_mk_dot (not_dot_of_allDigits hid) (not_dot_of_allDigits htd), hn]
      have hps : (10 : ℚ) ^ (18 - t.length) = 10 ^ 18 / 10 ^ t.length :=
        pow_sub₀ 10 (by norm_num) htle
      push_cast
      rw [hps]
      have h1 : (10 : ℚ) ^ t.length ≠ 0 := by positivity
      field_simp
      ring
    · simp only [parseUnits18, string_data_mk,
        splitOnDot_pair (not_dot_of_allDigits hid) (not_dot_of_allDigits htd)]
      rw [if_pos ⟨hid, hcase, htd, htle⟩, hn]
    · simp only [noTrailingZeroFrac, string_data_mk,
        splitOnDot_pair (not_dot_of_allDigits hid) (not_dot_of_allDigits htd)]
      have hlast := trimTrailingZeros_getLast (l := f) hcase
      rw [← ht] at hlast
      simp [hcase, hlast, htle]

/-! ## Lemmas: parsing the two decimal operands -/

theorem jsBigInt_digits {l : List Char} (h : AllDigits l) :
    jsBigInt l = some (strToNat l) := by
  have hall : l.all Char.isDigit = true := List.all_eq_true.mpr (fun c hc => h c hc)
  simp [jsBigInt, hall]

theorem jsEmptyOr_nil_default (l : List Char) : jsEmptyOr l [] = l := by
  unfold jsEmptyOr
  split <;> simp_all

theorem jsBigInt_or_zero {a b : List Char} (ha : AllDigits a) (hb : AllDigits b) :
    jsBigInt (jsEmptyOr a ['0'] ++ b) = some (strToNat (a ++ b)) := by
  by_cases hnil : a = []
  · subst hnil
    rw [show jsEmptyOr [] ['0'] = ['0'] from rfl]
    rw [jsBigInt_digits (allDigits_append (by decide) hb)]
    simp [strToNat_zero_cons]
  · rw [show jsEmptyOr a ['0'] = a from if_neg hnil]
    exact jsBigInt_digits (allDigits_append ha hb)

theorem parse_parts (ip : List Char) (fp : Option (List Char))
    (h1 : AllDigits ip) (h2 : AllDigits (fp.getD [])) :
    jsBigInt (jsOr (splitOnDot (mkDecString ip fp).data)[0]? ['0'] ++
        jsOr (splitOnDot (mkDecString ip fp).data)[1]? []) = some (parsedNum ip fp) ∧
      (jsOr (splitOnDot (mkDecString ip fp).data)[1]? []).length = fracLen fp := by
  cases fp with
  | none =>
    have hsplit : splitOnDot (mkDecString ip none).data = [ip] := by
      simp only [mkDecString, string_data_mk]
      exact splitOnDot_no_dot (not_dot_of_allDigits h1)
    rw [hsplit]
    have h0 : ([ip][0]? : Option (List Char)) = some ip := rfl
    have hone : ([ip][1]? : Option (List Char)) = none := rfl
    rw [h0, hone]
    have hjs1 : jsOr (some ip) ['0'] = jsEmptyOr ip ['0'] := rfl
    have hjs2 : jsOr (none : Option (List Char)) [] = [] := rfl
    rw [hjs1, hjs2]
    refine ⟨?_, rfl⟩
    have := jsBigInt_or_zero h1 (show AllDigits [] from fun c hc => by simp at hc)
    simpa [parsedNum] using this
  | some f =>
    simp only [Option.getD_some] at h2
    have hsplit : splitOnDot (mkDecString ip (some f)).data = [ip, f] := by
      simp only [mkDecString, string_data_mk]
      exact splitOnDot_pair (not_dot_of_allDigits h1) (not_dot_of_allDigits h2)
    rw [hsplit]
    have h0 : ([ip, f][0]? : Option (List Char)) = some ip := rfl
    have hone : ([ip, f][1]? : Option (List Char)) = some f := rfl
    rw [h0, hone]
    have hjs1 : jsOr (some ip) ['0'] = jsEmptyOr ip ['0'] := rfl
    have hjs2 : jsOr (some f) [] = f := by
      show jsEmptyOr f [] = f
      exact jsEmptyOr_nil_default f
    rw [hjs1, hjs2]
    exact ⟨jsBigInt_or_zero h1 h2, rfl⟩

theorem calcAmount_eq (si : List Char) (sf : Option (List Char))
    (ci : List Char) (cf : Option (List Char))
    (hs1 : AllDigits si) (hs2 : AllDigits (sf.getD []))
    (hc1 : AllDigits ci) (hc2 : AllDigits (cf.getD [])) :
    calculateAmountWithBigInt (mkDecString si sf) (mkDecString ci cf) =
      some (renderScaled18 (parsedNum si sf * parsedNum ci cf * 10 ^ 18 /
        (100 * 10 ^ (fracLen sf + fracLen cf)))) := by
  obtain ⟨ha1, hl1⟩ := parse_parts si sf hs1 hs2
  obtain ⟨ha2, hl2⟩ := parse_parts ci cf hc1 hc2
  simp only [calculateAmountWithBigInt]
  rw [ha1, ha2, hl1, hl2]

/-! ## Claim theorems -/

/-- Claim C1: for every non-negative decimal-string pair (shares, price)
with at most 4 combined fractional digits and price in `[0, 100]`, the
amount returned by `calculateAmountWithBigInt` satisfies
`result / shares = price / 100` exactly as rationals (for nonzero
shares): no precision is lost computing `shares * price / 100` at the
18-decimal output scale. -/
theorem calculateAmountWithBigInt_ratio_exact
    (si ci : List Char) (sf cf : Option (List Char))
    (hs1 : AllDigits si) (hs2 : AllDigits (sf.getD []))
    (hc1 : AllDigits ci) (hc2 : AllDigits (cf.getD []))
    (hlen : fracLen sf + fracLen cf ≤ 4)
    (hprice0 : 0 ≤ decValue (mkDecString ci cf))
    (hprice100 : decValue (mkDecString ci cf) ≤ 100)
    (hshares : decValue (mkDecString si sf) ≠ 0) :
    ∃ out,
      calculateAmountWithBigInt (mkDecString si sf) (mkDecString ci cf) = some out ∧
        decValue out / decValue (mkDecString si sf) =
          decValue (mkDecString ci cf) / 100 := by
  refine ⟨_, calcAmount_eq si sf ci cf hs1 hs2 hc1 hc2, ?_⟩
  set S := parsedNum si sf with hS
  set P := parsedNum ci cf with hP
  set ds := fracLen sf with hds
  set dc := fracLen cf with hdc
  have hdvd : (100 * 10 ^ (ds + dc)) ∣ S * P * 10 ^ 18 := by
    have hpow : (10 : ℕ) ^ (2 + (ds + dc)) = 100 * 10 ^ (ds + dc) := by
      rw [pow_add]
      norm_num
    have h18 : (100 * 10 ^ (ds + dc)) ∣ 10 ^ 18 := by
      rw [← hpow]
      exact pow_dvd_pow 10 (by omega)
    exact Dvd.dvd.mul_left h18 (S * P)
  have hcast : ((S * P * 10 ^ 18 / (100 * 10 ^ (ds + dc)) : ℕ) : ℚ) =
      (S : ℚ) * P * 10 ^ 18 / (100 * 10 ^ (ds + dc)) := by
    rw [Nat.cast_div hdvd (by positivity)]
    push_cast
    ring
  obtain ⟨hdec, -, -⟩ := renderScaled18_props (S * P * 10 ^ 18 / (100 * 10 ^ (ds + dc)))
  rw [hdec, hcast]
  rw [decValue_mkDecString hs1 hs2] at hshares ⊢
  rw [decValue_mkDecString hc1 hc2]
  rw [← hS, ← hds] at hshares ⊢
  rw [← hP, ← hdc]
  have hSne : (S : ℚ) ≠ 0 := by
    intro h0
    apply hshares
    rw [h0]
    simp
  have hpowsplit : (10 : ℚ) ^ (ds + dc) = 10 ^ ds * 10 ^ dc := pow_add 10 ds dc
  rw [hpowsplit]
  have hds0 : (10 : ℚ) ^ ds ≠ 0 := by positivity
  have hdc0 : (10 : ℚ) ^ dc ≠ 0 := by positivity
  field_simp
  ring

/-- Claim C1 witness: the concrete instance `shares = "1.5"`,
`price = "99.11"`. -/
theorem calculateAmountWithBigInt_ratio_exact_witness :
    AllDigits ['1'] ∧ AllDigits ['5'] ∧ AllDigits ['9', '9'] ∧
      AllDigits ['1', '1'] ∧
      fracLen (some ['5']) + fracLen (some ['1', '1']) ≤ 4 ∧
      0 ≤ decValue (mkDecString ['9', '9'] (some ['1', '1'])) ∧
      decValue (mkDecString ['9', '9'] (some ['1', '1'])) ≤ 100 ∧
      decValue (mkDecString ['1'] (some ['5'])) ≠ 0 ∧
      (∃ out,
        calculateAmountWithBigInt (mkDecString ['1'] (some ['5']))
            (mkDecString ['9', '9'] (some ['1', '1'])) = some out ∧
          decValue out / decValue (mkDecString ['1'] (some ['5'])) =
            decValue (mkDecString ['9', '9'] (some ['1', '1'])) / 100) := by
  have h1 : AllDigits ['1'] := by decide
  have h2 : AllDigits ['5'] := by decide
  have h3 : AllDigits ['9', '9'] := by decide
  have h4 : AllDigits ['1', '1'] := by decide
  have h5 : fracLen (some ['5']) + fracLen (some ['1', '1']) ≤ 4 := by decide
  have h2g : AllDigits ((some ['5']).getD []) := by decide
  have h4g : AllDigits ((some ['1', '1']).getD []) := by decide
  have h6 : 0 ≤ decValue (mkDecString ['9', '9'] (some ['1', '1'])) := by
    rw [decValue_mkDecString h3 h4g]
    positivity
  have h7 : decValue (mkDecString ['9', '9'] (some ['1', '1'])) ≤ 100 := by
    rw [decValue_mkDecString h3 h4g]
    have hv : parsedNum ['9', '9'] (some ['1', '1']) = 9911 := by decide
    rw [hv]
    norm_num [fracLen]
  have h8 : decValue (mkDecString ['1'] (some ['5'])) ≠ 0 := by
    rw [decValue_mkDecString h1 h2g]
    have hv : parsedNum ['1'] (some ['5']) = 15 := by decide
    rw [hv]
    norm_num [fracLen]
  exact ⟨h1, h2, h3, h4, h5, h6, h7, h8,
    calculateAmountWithBigInt_ratio_exact ['1'] ['9', '9'] (some ['5'])
      (some ['1', '1']) h1 h2 h3 h4 h5 h6 h7 h8⟩

/-- Claim C10: for every non-negative decimal-string `shares` and
`price`, `calculateAmountWithBigInt` returns exactly the decimal
rendering of `floor(shares * price * 10^18 / 100) / 10^18` (truncation
toward zero beyond 18 fractional digits), with at most 18 fractional
digits and no trailing zeros in the fractional part, so the 18-decimal
base-unit conversion accepts it without error. -/
theorem calculateAmountWithBigInt_truncation_18dp
    (si ci : List Char) (sf cf : Option (List Char))
    (hs1 : AllDigits si) (hs2 : AllDigits (sf.getD []))
    (hc1 : AllDigits ci) (hc2 : AllDigits (cf.getD [])) :
    ∃ out,
      calculateAmountWithBigInt (mkDecString si sf) (mkDecString ci cf) = some out ∧
        decValue out =
          (⌊decValue (mkDecString si sf) * decValue (mkDecString ci cf) *
              10 ^ 18 / 100⌋₊ : ℚ) / 10 ^ 18 ∧
        parseUnits18 out =
          some ⌊decValue (mkDecString si sf) * decValue (mkDecString ci cf) *
            10 ^ 18 / 100⌋₊ ∧
        noTrailingZeroFrac out = true := by
  refine ⟨_, calcAmount_eq si sf ci cf hs1 hs2 hc1 hc2, ?_⟩
  set S := parsedNum si sf with hS
  set P := parsedNum ci cf with hP
  set ds := fracLen sf with hds
  set dc := fracLen cf with hdc
  have hfloor : ⌊decValue (mkDecString si sf) * decValue (mkDecString ci cf) *
      10 ^ 18 / 100⌋₊ = S * P * 10 ^ 18 / (100 * 10 ^ (ds + dc)) := by
    rw [decValue_mkDecString hs1 hs2, decValue_mkDecString hc1 hc2]
    have hq : (S : ℚ) / 10 ^ ds * ((P : ℚ) / 10 ^ dc) * 10 ^ 18 / 100 =
        ((S * P * 10 ^ 18 : ℕ) : ℚ) / ((100 * 10 ^ (ds + dc) : ℕ) : ℚ) := by
      push_cast
      rw [pow_add]
      have h1 : (10 : ℚ) ^ ds ≠ 0 := by positivity
      have h2 : (10 : ℚ) ^ dc ≠ 0 := by positivity
      field_simp
      ring
    rw [hq, Nat.floor_div_nat, Nat.floor_natCast]
  rw [hfloor]
  exact renderScaled18_props _

/-- Claim C10 witness: the concrete instance `shares = "10.00"`,
`price = "99"`. -/
theorem calculateAmountWithBigInt_truncation_18dp_witness :
    AllDigits ['1', '0'] ∧ AllDigits ['0', '0'] ∧ AllDigits ['9', '9'] ∧
      (∃ out,
        calculateAmountWithBigInt (mkDecString ['1', '0'] (some ['0', '0']))
            (mkDecString ['9', '9'] none) = some out ∧
          decValue out =
            (⌊decValue (mkDecString ['1', '0'] (some ['0', '0'])) *
                decValue (mkDecString ['9', '9'] none) * 10 ^ 18 / 100⌋₊ : ℚ) /
              10 ^ 18 ∧
          parseUnits18 out =
            some ⌊decValue (mkDecString ['1', '0'] (some ['0', '0'])) *
              decValue (mkDecString ['9', '9'] none) * 10 ^ 18 / 100⌋₊ ∧
          noTrailingZeroFrac out = true) :=
  ⟨by decide, by decide, by decide,
    calculateAmountWithBigInt_truncation_18dp ['1', '0'] ['9', '9']
      (some ['0', '0']) none (by decide) (by decide) (by decide) (by decide)⟩

/-! ## Lemmas: `formatPriceWithBigInt` parsing -/

theorem parse_parts_price (ip : List Char) (fp : Option (List Char))
    (h1 : AllDigits ip) (h2 : AllDigits (fp.getD [])) (hlen : fracLen fp ≤ 2) :
    jsBigInt (jsOr (splitOnDot (mkDecString ip fp).data)[0]? ['0'] ++
        padEndZeros (jsOr (splitOnDot (mkDecString ip fp).data)[1]? ['0']) 2) =
      some (parsedNum ip fp * 10 ^ (2 - fracLen fp)) := by
  have hzeros : AllDigits (List.replicate 2 '0') := allDigits_replicate_zero 2
  cases fp with
  | none =>
    have hsplit : splitOnDot (mkDecString ip none).data = [ip] := by
      simp only [mkDecString, string_data_mk]
      exact splitOnDot_no_dot (not_dot_of_allDigits h1)
    rw [hsplit]
    have h0 : ([ip][0]? : Option (List Char)) = some ip := rfl
    have hone : ([ip][1]? : Option (List Char)) = none := rfl
    rw [h0, hone]
    have hjs1 : jsOr (some ip) ['0'] = jsEmptyOr ip ['0'] := rfl
    have hjs2 : padEndZeros (jsOr (none : Option (List Char)) ['0']) 2 =
        List.replicate 2 '0' := rfl
    rw [hjs1, hjs2, jsBigInt_or_zero h1 hzeros, strToNat_append_zeros]
    simp [parsedNum, fracLen]
  | some f =>
    simp only [Option.getD_some] at h2
    simp only [fracLen, Option.getD_some] at hlen
    have hsplit : splitOnDot (mkDecString ip (some f)).data = [ip, f] := by
      simp only [mkDecString, string_data_mk]
      exact splitOnDot_pair (not_dot_of_allDigits h1) (not_dot_of_allDigits h2)
    rw [hsplit]
    have h0 : ([ip, f][0]? : Option (List Char)) = some ip := rfl
    have hone : ([ip, f][1]? : Option (List Char)) = some f := rfl
    rw [h0, hone]
    have hjs1 : jsOr (some ip) ['0'] = jsEmptyOr ip ['0'] := rfl
    rw [hjs1]
    by_cases hf : f = []
    · subst hf
      have hjs2 : padEndZeros (jsOr (some ([] : List Char)) ['0']) 2 =
          List.replicate 2 '0' := rfl
      rw [hjs2, jsBigInt_or_zero h1 hzeros, strToNat_append_zeros]
      simp [parsedNum, fracLen]
    · have hjs2 : jsOr (some f) ['0'] = f := by
        show jsEmptyOr f ['0'] = f
        exact if_neg hf
      rw [hjs2]
      have hpad : padEndZeros f 2 = f ++ List.replicate (2 - f.length) '0' := rfl
      rw [hpad]
      have hdig : AllDigits (f ++ List.replicate (2 - f.length) '0') :=
        allDigits_append h2 (allDigits_replicate_zero _)
      rw [jsBigInt_or_zero h1 hdig]
      congr 1
      rw [← List.append_assoc, strToNat_append_zeros]
      simp [parsedNum, fracLen]

/-- Claim C3 (amended): for every percentage string in `[0, 100]` with
at most 2 fractional digits, `formatPriceWithBigInt` returns
`percentage / 100` truncated toward zero at the 3rd decimal, rendered
with exactly 3 fractional digits. -/
theorem formatPriceWithBigInt_truncates_to_3dp
    (ip : List Char) (fp : Option (List Char))
    (h1 : AllDigits ip) (h2 : AllDigits (fp.getD []))
    (hlen : fracLen fp ≤ 2)
    (h0 : 0 ≤ decValue (mkDecString ip fp))
    (h100 : decValue (mkDecString ip fp) ≤ 100) :
    ∃ out,
      formatPriceWithBigInt (mkDecString ip fp) = some out ∧
        (∃ ipart f3, out.data = ipart ++ '.' :: f3 ∧ f3.length = 3) ∧
        decValue out = (⌊decValue (mkDecString ip fp) * 10⌋₊ : ℚ) / 1000 := by
  have hbig := parse_parts_price ip fp h1 h2 hlen
  have hformat0 : formatPriceWithBigInt (mkDecString ip fp) =
      some (String.mk
        (jsEmptyOr ((padStartZeros (natToDigits
            (parsedNum ip fp * 10 ^ (2 - fracLen fp) * 1000 / 10000)) 4).take
          ((padStartZeros (natToDigits
            (parsedNum ip fp * 10 ^ (2 - fracLen fp) * 1000 / 10000)) 4).length - 3)) ['0'] ++
        '.' :: (padStartZeros (natToDigits
            (parsedNum ip fp * 10 ^ (2 - fracLen fp) * 1000 / 10000)) 4).drop
          ((padStartZeros (natToDigits
            (parsedNum ip fp * 10 ^ (2 - fracLen fp) * 1000 / 10000)) 4).length - 3))) := by
    simp only [formatPriceWithBigInt, hbig]
  have hR : parsedNum ip fp * 10 ^ (2 - fracLen fp) * 1000 / 10000 =
      parsedNum ip fp * 10 ^ (2 - fracLen fp) / 10 := by
    have h10000 : (10000 : ℕ) = 10 * 1000 := rfl
    rw [h10000]
    exact Nat.mul_div_mul_right _ 10 (by norm_num)
  rw [hR] at hformat0
  set R := parsedNum ip fp * 10 ^ (2 - fracLen fp) / 10 with hRdef
  obtain ⟨hne, hdlen, hval⟩ := renderCore R 3
  have h34 : (3 : Nat) + 1 = 4 := rfl
  rw [h34] at hne hdlen hval
  set s := padStartZeros (natToDigits R) 4 with hs
  set i := s.take (s.length - 3) with hi
  set f3 := s.drop (s.length - 3) with hf3
  have hsd : AllDigits s := allDigits_padStart (allDigits_natToDigits R) 4
  have hid : AllDigits i := allDigits_take hsd _
  have hf3d : AllDigits f3 := allDigits_drop hsd _
  have hemptyOr : jsEmptyOr i ['0'] = i := by simp [jsEmptyOr, hne]
  rw [hemptyOr] at hformat0
  refine ⟨_, hformat0, ⟨i, f3, rfl, hdlen⟩, ?_⟩
  have hfloor : ⌊decValue (mkDecString ip fp) * 10⌋₊ = R := by
    rw [decValue_mkDecString h1 h2]
    have hv10 : (parsedNum ip fp : ℚ) / 10 ^ fracLen fp * 10 =
        ((parsedNum ip fp * 10 ^ (2 - fracLen fp) : ℕ) : ℚ) / ((10 : ℕ) : ℚ) := by
      push_cast
      have hsplitpow : (10 : ℚ) ^ fracLen fp * 10 ^ (2 - fracLen fp) = 10 ^ 2 := by
        rw [← pow_add]
        congr 1
        omega
      have he0 : (10 : ℚ) ^ fracLen fp ≠ 0 := by positivity
      rw [div_mul_eq_mul_div, div_eq_div_iff he0 (by norm_num)]
      calc (parsedNum ip fp : ℚ) * 10 * 10
          = (parsedNum ip fp : ℚ) * 10 ^ 2 := by ring
        _ = (parsedNum ip fp : ℚ) *
              (10 ^ fracLen fp * 10 ^ (2 - fracLen fp)) := by rw [hsplitpow]
        _ = (parsedNum ip fp : ℚ) * 10 ^ (2 - fracLen fp) * 10 ^ fracLen fp := by
              ring
    rw [hv10, Nat.floor_div_nat, Nat.floor_natCast, ← hRdef]
  rw [hfloor]
  rw [decValue_mk_dot (not_dot_of_allDigits hid) (not_dot_of_allDigits hf3d), hdlen]
  have h1000 : ((1000 : ℚ)) = 10 ^ 3 := by norm_num
  rw [h1000]
  have hR3 : R = strToNat i * 10 ^ 3 + strToNat f3 := hval.symm
  rw [hR3]
  push_cast
  field_simp
  norm_num

/-- Claim C3 witness: the concrete instance `"99.11"`, whose converted
price is `"0.991"`. -/
theorem formatPriceWithBigInt_truncates_to_3dp_witness :
    AllDigits ['9', '9'] ∧ AllDigits ['1', '1'] ∧
      fracLen (some ['1', '1']) ≤ 2 ∧
      0 ≤ decValue (mkDecString ['9', '9'] (some ['1', '1'])) ∧
      decValue (mkDecString ['9', '9'] (some ['1', '1'])) ≤ 100 ∧
      (∃ out,
        formatPriceWithBigInt (mkDecString ['9', '9'] (some ['1', '1'])) =
            some out ∧
          (∃ ipart f3, out.data = ipart ++ '.' :: f3 ∧ f3.length = 3) ∧
          decValue out =
            (⌊decValue (mkDecString ['9', '9'] (some ['1', '1'])) * 10⌋₊ : ℚ) /
              1000) := by
  have h1 : AllDigits ['9', '9'] := by decide
  have h2 : AllDigits ['1', '1'] := by decide
  have h2g : AllDigits ((some ['1', '1']).getD []) := by decide
  have h3 : fracLen (some ['1', '1']) ≤ 2 := by decide
  have h4 : 0 ≤ decValue (mkDecString ['9', '9'] (some ['1', '1'])) := by
    rw [decValue_mkDecString h1 h2g]
    positivity
  have h5 : decValue (mkDecString ['9', '9'] (some ['1', '1'])) ≤ 100 := by
    rw [decValue_mkDecString h1 h2g]
    have hv : parsedNum ['9', '9'] (some ['1', '1']) = 9911 := by decide
    rw [hv]
    norm_num [fracLen]
  exact ⟨h1, h2, h3, h4, h5,
    formatPriceWithBigInt_truncates_to_3dp ['9', '9'] (some ['1', '1'])
      h1 h2 h3 h4 h5⟩

/-- Claim C3 counterexample: the input `"99.115"` lies in `[0, 100]`,
truncating `99.115 / 100` to 3 decimal places gives value `0.991`
(= 991/1000), yet `formatPriceWithBigInt` returns `"9.911"`, whose
value is not `991/1000` — the claim fails for percentage inputs with
more than 2 fractional digits. -/
theorem formatPriceWithBigInt_three_digit_input_refutes :
    formatPriceWithBigInt "99.115" = some "9.911" ∧
      (⌊decValue "99.115" * 10⌋₊ : ℚ) / 1000 = 991 / 1000 ∧
      decValue "9.911" ≠ 991 / 1000 := by
  refine ⟨by decide, ?_, ?_⟩
  · have hs : "99.115" = String.mk (['9', '9'] ++ '.' :: ['1', '1', '5']) := rfl
    rw [hs, decValue_mk_dot (by decide) (by decide)]
    have h99 : strToNat ['9', '9'] = 99 := by decide
    have h115 : strToNat ['1', '1', '5'] = 115 := by decide
    rw [h99, h115]
    push_cast
    have hfl : ⌊((99 : ℚ) + (115 : ℚ) / 10 ^ (['1', '1', '5'].length)) * 10⌋₊ =
        991 := by
      rw [Nat.floor_eq_iff (by positivity)]
      constructor <;> norm_num
    rw [hfl]
    norm_num
  · have hs : "9.911" = String.mk (['9'] ++ '.' :: ['9', '1', '1']) := rfl
    rw [hs, decValue_mk_dot (by decide) (by decide)]
    have h9 : strToNat ['9'] = 9 := by decide
    have h911 : strToNat ['9', '1', '1'] = 911 := by decide
    rw [h9, h911]
    norm_num

/-- Claim C2 (code bug evidence): the intended conversion
`priceToMarketFraction` (`formatPriceWithBigInt`) maps `"99.11"` to
`"0.991"` and `"99"` to `"0.990"`, as the claim states — but
`buildApiPayload` in orderBuilder.js never calls it: its price field is
`(parseFloat(limitPrice) / 100).toString()`, a double computation whose
result for `"99"` is the string `"0.99"`, never the 3-decimal forms
shown here. -/
theorem formatPriceWithBigInt_intended_wire_price :
    formatPriceWithBigInt "99.11" = some "0.991" ∧
      formatPriceWithBigInt "99" = some "0.990" := by
  exact ⟨by decide, by decide⟩

/-- Claim C4 (code bug evidence): for `shares = "10.00"`,
`price = "99"`, `side = SELL`, stable collateral, volume mode `Shares`,
the amount calculator yields intermediate amount `"9.9"` (value 9.90),
`makerAmount = toWei "10.00" = 10^19` and
`takerAmount = toWei "9.90" = 9.9 * 10^18`, and the intended
`priceToMarketFraction` gives `"0.990"` — but the wire price actually
produced by `buildApiPayload` is the float string `"0.99"`, not
`"0.990"`. -/
theorem calculateOrderAmounts_sell_scenario_eval :
    calculateOrderAmounts ⟨1, "10.00", "99", "Shares", "0", true⟩ =
        some ("10000000000000000000", "9900000000000000000") ∧
      toWei "10.00" = some "10000000000000000000" ∧
      toWei "9.90" = some "9900000000000000000" ∧
      calculateAmountWithBigInt "10.00" "99" = some "9.9" ∧
      decValue "9.9" = decValue "9.90" ∧
      formatPriceWithBigInt "99" = some "0.990" := by
  refine ⟨by decide, by decide, by decide, by decide, ?_, by decide⟩
  have hs1 : "9.9" = String.mk (['9'] ++ '.' :: ['9']) := rfl
  have hs2 : "9.90" = String.mk (['9'] ++ '.' :: ['9', '0']) := rfl
  rw [hs1, hs2, decValue_mk_dot (by decide) (by decide),
    decValue_mk_dot (by decide) (by decide)]
  have h1 : strToNat ['9'] = 9 := by decide
  have h2 : strToNat ['9', '0'] = 90 := by decide
  rw [h1, h2]
  norm_num

/-- Claim C5: for every fixed input tuple, flipping the side between
BUY (0) and SELL (1) in `calculateOrderAmounts` exactly swaps the
returned `(makerAmount, takerAmount)` pair. -/
theorem calculateOrderAmounts_side_swap (p : OrderAmountParams) :
    calculateOrderAmounts { p with side := 0 } =
      Option.map Prod.swap (calculateOrderAmounts { p with side := 1 }) := by
  simp only [calculateOrderAmounts]
  cases hv : (if p.volumeType = "Shares" then
      calculateAmountWithBigInt p.shares
        (if p.isStableCoin then p.limitPrice else rescalePrice100 p.limitPrice)
    else some p.buyInputVal) with
  | none => rfl
  | some amount =>
    cases h1 : toWei amount <;> cases h2 : toWei p.shares <;>
      simp [h1, h2]

/-- Claim C7 counterexample: `"NOT-AN-ADDRESS"` is not a well-formed
20-byte hex address, yet `createOrder` raises no error: it returns a
complete order with the malformed maker and signer merely lowercased —
the claimed validation does not exist in `createOrder` (the validating
`normalizeAddress` helper is never called there). -/
theorem createOrder_accepts_malformed_address :
    isValidAddress "NOT-AN-ADDRESS" = false ∧
      createOrder 0
          { maker := "NOT-AN-ADDRESS", signer := "ALSO BAD", tokenId := "1",
            makerAmount := "2", takerAmount := "3", side := 0 } =
        { salt := "0", maker := "not-an-address", signer := "also bad",
          taker := ZERO_ADDRESS, tokenId := "1", makerAmount := "2",
          takerAmount := "3", expiration := "0", nonce := "0",
          feeRateBps := "0", side := 0, signatureType := POLY_GNOSIS_SAFE } := by
  exact ⟨by decide, by decide⟩

/-- Claim C7 (amended): `createOrder` normalizes the maker and signer
to lowercase, fixes taker/nonce/signatureType, and performs no address
validation whatsoever — it returns an order for every input (it is a
total function; only the unused `normalizeAddress` helper validates). -/
theorem createOrder_normalizes_without_validation
    (now : Nat) (p : CreateOrderInput) :
    (createOrder now p).maker = jsToLowerAscii p.maker ∧
      (createOrder now p).signer = jsToLowerAscii p.signer ∧
      (createOrder now p).taker = ZERO_ADDRESS ∧
      (createOrder now p).nonce = "0" ∧
      (createOrder now p).signatureType = POLY_GNOSIS_SAFE :=
  ⟨rfl, rfl, rfl, rfl, rfl⟩

/-- Claim C9: `signOrder` returns the input order's fields unchanged
plus the wallet's raw typed-data signature verbatim; the result is
never the signer-address-prefixed packed encoding that
`encodeGnosisSafeSignature` would produce (for a well-formed 42-character
`0x`-prefixed signer the packed form is strictly longer than any raw
signature). -/
theorem signOrder_returns_raw_signature (sig : String) (o : OrderRec)
    (hsigner : o.signer.data.length = 42) :
    (signOrder sig o).toOrderRec = o ∧ (signOrder sig o).signature = sig ∧
      (signOrder sig o).signature ≠ encodeGnosisSafeSignature o.signer sig := by
  refine ⟨rfl, rfl, ?_⟩
  show sig ≠ encodeGnosisSafeSignature o.signer sig
  intro heq
  have hmaplen : ∀ s : String, (jsToLowerAscii s).data.length = s.data.length := by
    intro s
    simp [jsToLowerAscii]
  have hlen := congrArg (fun s : String => s.data.length) heq
  simp only [encodeGnosisSafeSignature, string_data_mk] at hlen
  by_cases h1 : sig.data.take 2 = ['0', 'x'] <;>
    by_cases h2 : (jsToLowerAscii o.signer).data.take 2 = ['0', 'x'] <;>
    simp only [h1, h2, if_true, if_false, List.length_cons, List.length_append,
      List.length_drop, hmaplen, if_neg, if_pos] at hlen
  · have htk := congrArg List.length h1
    simp only [List.length_take] at htk
    have : sig.data.length ≥ 2 := by
      by_contra hlt
      push_neg at hlt
      simp at htk
      omega
    omega
  · have htk := congrArg List.length h1
    simp only [List.length_take] at htk
    have : sig.data.length ≥ 2 := by
      by_contra hlt
      push_neg at hlt
      simp at htk
      omega
    omega
  · omega
  · omega

/-- Claim C9 witness: a concrete order with a 42-character signer and a
concrete raw signature. -/
theorem signOrder_returns_raw_signature_witness :
    (("0xaaaaaaaaaaaaaaaaaaaaaaaaaaaaaaaaaaaaaaaa" : String).data.length = 42) ∧
      ((signOrder "0x1234"
          { salt := "1", maker := "0xm", taker := ZERO_ADDRESS,
            signer := "0xaaaaaaaaaaaaaaaaaaaaaaaaaaaaaaaaaaaaaaaa",
            tokenId := "5", makerAmount := "6", takerAmount := "7",
            expiration := "0", nonce := "0", feeRateBps := "0", side := 1,
            signatureType := POLY_GNOSIS_SAFE }).toOrderRec =
          { salt := "1", maker := "0xm", taker := ZERO_ADDRESS,
            signer := "0xaaaaaaaaaaaaaaaaaaaaaaaaaaaaaaaaaaaaaaaa",
            tokenId := "5", makerAmount := "6", takerAmount := "7",
            expiration := "0", nonce := "0", feeRateBps := "0", side := 1,
            signatureType := POLY_GNOSIS_SAFE } ∧
        (signOrder "0x1234"
          { salt := "1", maker := "0xm", taker := ZERO_ADDRESS,
            signer := "0xaaaaaaaaaaaaaaaaaaaaaaaaaaaaaaaaaaaaaaaa",
            tokenId := "5", makerAmount := "6", takerAmount := "7",
            expiration := "0", nonce := "0", feeRateBps := "0", side := 1,
            signatureType := POLY_GNOSIS_SAFE }).signature = "0x1234" ∧
        (signOrder "0x1234"
          { salt := "1", maker := "0xm", taker := ZERO_ADDRESS,
            signer := "0xaaaaaaaaaaaaaaaaaaaaaaaaaaaaaaaaaaaaaaaa",
            tokenId := "5", makerAmount := "6", takerAmount := "7",
            expiration := "0", nonce := "0", feeRateBps := "0", side := 1,
            signatureType := POLY_GNOSIS_SAFE }).signature ≠
          encodeGnosisSafeSignature
            "0xaaaaaaaaaaaaaaaaaaaaaaaaaaaaaaaaaaaaaaaa" "0x1234") :=
  ⟨by decide,
    signOrder_returns_raw_signature "0x1234"
      { salt := "1", maker := "0xm", taker := ZERO_ADDRESS,
        signer := "0xaaaaaaaaaaaaaaaaaaaaaaaaaaaaaaaaaaaaaaaa",
        tokenId := "5", makerAmount := "6", takerAmount := "7",
        expiration := "0", nonce := "0", feeRateBps := "0", side := 1,
        signatureType := POLY_GNOSIS_SAFE } (by decide)⟩

/-- Claim C6 counterexample: the non-numeric price `"50abc"` does not
fail with the price validation error — `parseFloat` accepts the numeric
prefix `50`, validation passes, and the failure only happens later,
inside the amount computation (`BigInt("50abc")` throws), contradicting
"fails with a validation error before any amount computation". -/
theorem buildOrderParams_partial_numeric_price_reaches_amounts :
    buildOrderParams
        { maker := "0xmaker", signer := "0xsigner", tokenId := "123",
          limitPrice := "50abc", shares := "1", side := 0 } =
      Except.error BuildError.amountError ∧
      BuildError.amountError ≠ BuildError.invalidPrice := by
  exact ⟨by rfl, by decide⟩

/-- Claim C6 (amended): a limit price that `parseFloat` reads as `NaN`
(entirely non-numeric), as a signed infinity, or as a finite value
outside `[0, 100]` — with at most 13 parsed fractional digits, so that
the exact comparison coincides with the double comparison — makes
`buildOrderParams` fail with the price validation error, before any
amount computation or signing; a price with an in-range numeric prefix
followed by garbage instead passes validation and fails only during
amount computation. -/
theorem buildOrderParams_price_validation (p : BuildOrderInput)
    (hm : p.maker ≠ "") (hs : p.signer ≠ "") (ht : p.tokenId ≠ "")
    (hl : p.limitPrice ≠ "") (hsh : p.shares ≠ "")
    (hside : p.side = 0 ∨ p.side = 1)
    (hprice : jsParseFloat p.limitPrice = JsNumParse.nan ∨
      (∃ b, jsParseFloat p.limitPrice = JsNumParse.infinite b) ∨
      ∃ n f, jsParseFloat p.limitPrice = JsNumParse.finite n f ∧ f ≤ 13 ∧
        (floatVal (n, f) < 0 ∨ 100 < floatVal (n, f))) :
    buildOrderParams p = Except.error BuildError.invalidPrice := by
  have hcond1 : ¬(p.maker = "" ∨ p.signer = "" ∨ p.tokenId = "" ∨
      p.limitPrice = "" ∨ p.shares = "") := by
    simp [hm, hs, ht, hl, hsh]
  have hcond2 : ¬¬(p.side = 0 ∨ p.side = 1) := not_not_intro hside
  unfold buildOrderParams
  rw [if_neg hcond1, if_neg hcond2]
  cases hj : jsParseFloat p.limitPrice with
  | nan => rfl
  | infinite b => rfl
  | finite n f =>
    rcases hprice with hnan | ⟨b, hinf⟩ | ⟨n2, f2, hfin, hf13, hbad⟩
    · rw [hj] at hnan
      cases hnan
    · rw [hj] at hinf
      cases hinf
    · rw [hj] at hfin
      injection hfin with hn hf
      subst hn
      subst hf
      have hc : n < 0 ∨ (100 : Int) * 10 ^ f < n := by
        rcases hbad with hneg | hgt
        · left
          by_contra hge
          push_neg at hge
          have hnn : (0 : ℚ) ≤ floatVal (n, f) := by
            unfold floatVal
            apply div_nonneg
            · exact_mod_cast hge
            · positivity
          linarith
        · right
          have hpow : (0 : ℚ) < 10 ^ f := by positivity
          have h1 : (100 : ℚ) * 10 ^ f < ((n, f).1 : ℚ) := by
            have h2 := (lt_div_iff hpow).mp hgt
            linarith
          have h3 : (((100 : Int) * 10 ^ f : Int) : ℚ) < ((n : Int) : ℚ) := by
            push_cast
            push_cast at h1
            linarith
          exact_mod_cast h3
      rcases hc with hc1 | hc1 <;> simp [hc1]

/-- Claim C6 witness: the concrete input `price = "101"` fails with the
price validation error. -/
theorem buildOrderParams_price_validation_witness :
    (("0xm" : String) ≠ "") ∧ (("0xs" : String) ≠ "") ∧
      (("1" : String) ≠ "") ∧ (("101" : String) ≠ "") ∧
      (("2" : String) ≠ "") ∧ ((0 : Nat) = 0 ∨ (0 : Nat) = 1) ∧
      (jsParseFloat "101" = JsNumParse.nan ∨
        (∃ b, jsParseFloat "101" = JsNumParse.infinite b) ∨
        ∃ n f, jsParseFloat "101" = JsNumParse.finite n f ∧ f ≤ 13 ∧
          (floatVal (n, f) < 0 ∨ 100 < floatVal (n, f))) ∧
      buildOrderParams
          { maker := "0xm", signer := "0xs", tokenId := "1",
            limitPrice := "101", shares := "2", side := 0 } =
        Except.error BuildError.invalidPrice := by
  have hj : jsParseFloat "101" = JsNumParse.finite 101 0 := by decide
  have hv : (100 : ℚ) < floatVal (101, 0) := by
    norm_num [floatVal]
  have hprice : jsParseFloat "101" = JsNumParse.nan ∨
      (∃ b, jsParseFloat "101" = JsNumParse.infinite b) ∨
      ∃ n f, jsParseFloat "101" = JsNumParse.finite n f ∧ f ≤ 13 ∧
        (floatVal (n, f) < 0 ∨ 100 < floatVal (n, f)) :=
    Or.inr (Or.inr ⟨101, 0, hj, by norm_num, Or.inr hv⟩)
  exact ⟨by decide, by decide, by decide, by decide, by decide,
    Or.inl rfl, hprice,
    buildOrderParams_price_validation
      { maker := "0xm", signer := "0xs", tokenId := "1",
        limitPrice := "101", shares := "2", side := 0 }
      (by decide) (by decide) (by decide) (by decide) (by decide)
      (Or.inl rfl) hprice⟩

/-- Claim C8 counterexample: with volume mode `Amount` and the
`buyInputVal` argument omitted (JS default `'0'`), `buildOrderParams`
does not fail at all — it succeeds with a zero maker amount, so a
missing currency amount in `Amount` mode is never detected; also the
missing-shares error is the combined "Missing required parameters"
error naming all five fields, not one identifying only the offending
field. -/
theorem buildOrderParams_amount_mode_missing_input_ok :
    buildOrderParams
        { maker := "0xm", signer := "0xs", tokenId := "1",
          limitPrice := "50", shares := "10", side := 0,
          volumeType := "Amount" } =
      Except.ok
        { maker := "0xm", signer := "0xs", tokenId := "1",
          makerAmount := "0", takerAmount := "10000000000000000000",
          side := 0, expiration := "0", feeRateBps := "0" } := by
  rfl

/-- Claim C8 (amended): a missing (empty) shares value fails with the
combined missing-required-parameters error, for every volume mode,
before any amount computation; a missing `buyInputVal` with volumeType
`Amount` is not detected — whenever the other inputs pass validation
(`parseFloat` reads the price as a finite value in `[0, 100]`; the
exact in-range test implies the double in-range test, since rounding to
nearest cannot carry a value across the representable boundaries 0 and
100), the call succeeds with a zero currency amount. -/
theorem buildOrderParams_missing_volume_input (p : BuildOrderInput) :
    (p.shares = "" → buildOrderParams p = Except.error BuildError.missingParams) ∧
      (∀ n f w, p.volumeType = "Amount" → p.buyInputVal = "0" →
        p.maker ≠ "" → p.signer ≠ "" → p.tokenId ≠ "" → p.limitPrice ≠ "" →
        p.shares ≠ "" → p.side = 0 →
        jsParseFloat p.limitPrice = JsNumParse.finite n f →
        ¬(n < 0 ∨ (100 : Int) * 10 ^ f < n) →
        toWei p.shares = some w →
        buildOrderParams p =
          Except.ok
            { maker := p.maker, signer := p.signer, tokenId := p.tokenId,
              makerAmount := "0", takerAmount := w, side := p.side,
              expiration := p.expiration, feeRateBps := p.feeRateBps }) := by
  constructor
  · intro h
    unfold buildOrderParams
    rw [if_pos (Or.inr (Or.inr (Or.inr (Or.inr h))))]
  · intro n f w hvt hbv hm hs ht hl hsh hside hj hok hw
    have hcond1 : ¬(p.maker = "" ∨ p.signer = "" ∨ p.tokenId = "" ∨
        p.limitPrice = "" ∨ p.shares = "") := by
      simp [hm, hs, ht, hl, hsh]
    have hcond2 : ¬¬(p.side = 0 ∨ p.side = 1) := not_not_intro (Or.inl hside)
    have hamt : calculateOrderAmounts
        ⟨p.side, p.shares, p.limitPrice, p.volumeType, p.buyInputVal,
          p.isStableCoin⟩ = some ("0", w) := by
      have hvne : p.volumeType ≠ "Shares" := by
        rw [hvt]
        decide
      have htw0 : toWei "0" = some "0" := by decide
      simp only [calculateOrderAmounts, hvne, if_false, hbv, hside,
        if_pos, htw0, hw]
    unfold buildOrderParams
    rw [if_neg hcond1, if_neg hcond2]
    cases hj2 : jsParseFloat p.limitPrice with
    | nan =>
      rw [hj2] at hj
      cases hj
    | infinite b =>
      rw [hj2] at hj
      cases hj
    | finite n2 f2 =>
      rw [hj2] at hj
      injection hj with hn hf
      subst hn
      subst hf
      simp [hok, hamt]

/-- Claim C8 witness: a concrete missing-shares failure and a concrete
`Amount`-mode call with defaulted `buyInputVal` that succeeds. -/
theorem buildOrderParams_missing_volume_input_witness :
    buildOrderParams
        { maker := "0xm", signer := "0xs", tokenId := "1",
          limitPrice := "50", shares := "", side := 0 } =
      Except.error BuildError.missingParams ∧
      buildOrderParams
          { maker := "0xm", signer := "0xs", tokenId := "1",
            limitPrice := "50", shares := "10", side := 0,
            volumeType := "Amount" } =
        Except.ok
          { maker := "0xm", signer := "0xs", tokenId := "1",
            makerAmount := "0", takerAmount := "10000000000000000000",
            side := 0, expiration := "0", feeRateBps := "0" } := by
  constructor
  · exact (buildOrderParams_missing_volume_input
      { maker := "0xm", signer := "0xs", tokenId := "1",
        limitPrice := "50", shares := "", side := 0 }).1 rfl
  · exact (buildOrderParams_missing_volume_input
      { maker := "0xm", signer := "0xs", tokenId := "1",
        limitPrice := "50", shares := "10", side := 0,
        volumeType := "Amount" }).2 50 0 "10000000000000000000"
      rfl rfl (by decide) (by decide) (by decide) (by decide) (by decide)
      rfl (by decide) (by decide) (by decide)
